import Mathlib

/-!
Verification of the retry/backoff executor, error classification, response
extraction and persisted session model of the Jack Brito chat front-end.

Strings are modelled as `List Char` (JavaScript strings), converted from Lean
string literals by `str`.  Asynchronous operations are modelled as functions
from the attempt index to an `Except` outcome; timers and the debounced
localStorage write-through are modelled as settled (all scheduled callbacks
have fired), and durable storage is modelled by the value it hydrates to
(an absent or malformed key hydrates to the empty collection, exactly as the
component's mount-time `JSON.parse` fallback does).
-/

namespace JackBrito

/-- Chars of a Lean string literal, standing in for a JavaScript string. -/
def str (s : String) : List Char := s.data

/-- JavaScript `toLowerCase`, restricted to the characters the code matches on. -/
def lowerStr (s : List Char) : List Char := s.map Char.toLower

/-- `isPre pat s` is true when `pat` occurs at the start of `s`. -/
def isPre (pat s : List Char) : Bool :=
  match pat, s with
  | [], _ => true
  | _ :: _, [] => false
  | a :: ps, b :: ss => a == b && isPre ps ss

/-- Index of the leftmost occurrence of `pat` in `s`, if any. -/
def findSub (pat : List Char) (s : List Char) : Option Nat :=
  match s with
  | [] => if isPre pat [] then some 0 else none
  | c :: t => if isPre pat (c :: t) then some 0 else (findSub pat t).map (· + 1)

/-- JavaScript `String.prototype.includes`. -/
def containsSub (s pat : List Char) : Bool := (findSub pat s).isSome

/-- Number of (possibly overlapping) occurrences of `pat` in `s`. -/
def countSub (s pat : List Char) : Nat :=
  ((List.range (s.length + 1)).filter (fun i => isPre pat (s.drop i))).length

/-- ASCII whitespace removed by JavaScript `String.prototype.trim`. -/
def isJsWs (c : Char) : Bool :=
  c = ' ' || c = '\t' || c = '\n' || c = '\r' || c.toNat = 11 || c.toNat = 12

/-- JavaScript `String.prototype.trim` over the ASCII whitespace set. -/
def jsTrim (s : List Char) : List Char :=
  ((s.dropWhile isJsWs).reverse.dropWhile isJsWs).reverse

/-- JavaScript `Array.prototype.join('\n')`. -/
def joinLines : List (List Char) → List Char
  | [] => []
  | [x] => x
  | x :: y :: t => x ++ '\n' :: joinLines (y :: t)

/-! ## Error model and the backoff-retrying call executor (geminiService) -/

/-- A failure thrown by the external generation call: a message string
(the source reads `error.message || ''`, so an absent message is the empty
string) and an optional numeric `status`. -/
structure JsError where
  message : List Char
  status : Option Nat
deriving DecidableEq

/-- The retryability test of `retryOperation` (lines 39-46 of the service):
status 429 or 503, or the lowercased message containing one of
`429`, `503`, `quota`, `resource_exhausted`, `overloaded`. -/
def isRetryableError (e : JsError) : Bool :=
  let m := lowerStr e.message
  e.status == some 429 || e.status == some 503 ||
  containsSub m (str "429") || containsSub m (str "503") ||
  containsSub m (str "quota") || containsSub m (str "resource_exhausted") ||
  containsSub m (str "overloaded")

/-- Observable behaviour of one `retryOperation` run: how many times the
wrapped operation was invoked, the waits performed before each retry
(in order), and the final outcome. -/
structure RetryTrace (T : Type) where
  attempts : Nat
  delays : List Nat
  result : Except JsError T

/-- The loop of `retryOperation` starting at iteration `attempt`.  The source
loop `for (attempt = 0; attempt <= maxRetries; attempt++)` keeps
`attempt ≤ maxRetries` on entry, so its stop test `attempt === maxRetries`
is rendered as `maxRetries ≤ attempt`. -/
def retryAux {T : Type} (op : Nat → Except JsError T)
    (maxRetries initialDelay attempt : Nat) : RetryTrace T :=
  match op attempt with
  | Except.ok v => ⟨1, [], Except.ok v⟩
  | Except.error e =>
    if h : isRetryableError e = false ∨ maxRetries ≤ attempt then
      ⟨1, [], Except.error e⟩
    else
      let rest := retryAux op maxRetries initialDelay (attempt + 1)
      ⟨rest.attempts + 1, initialDelay * 2 ^ attempt :: rest.delays, rest.result⟩
termination_by maxRetries - attempt
decreasing_by
  simp only [not_or, Bool.not_eq_false, not_le] at h
  omega

/-- `retryOperation(operation, maxRetries, initialDelay)` (service lines 32-58). -/
def retryOperation {T : Type} (op : Nat → Except JsError T)
    (maxRetries initialDelay : Nat) : RetryTrace T :=
  retryAux op maxRetries initialDelay 0

/-- `retryOperation` invoked with its default arguments
(`maxRetries = 3`, `initialDelay = 2000`). -/
def retryOperationDefault {T : Type} (op : Nat → Except JsError T) : RetryTrace T :=
  retryOperation op 3 2000

/-- The run stops growing at index `n`: the `n`-th attempt either succeeds or
fails non-retryably. -/
def stopsRetrying {T : Type} (op : Nat → Except JsError T) (n : Nat) : Prop :=
  (∃ v, op n = Except.ok v) ∨ (∃ e, op n = Except.error e ∧ isRetryableError e = false)

/-! ## RNT context buffer (RNTRenderer) -/

/-- One command/response pair of the RNT context buffer
(`{user: string, system: string}`). -/
structure Interaction where
  user : List Char
  system : List Char
deriving DecidableEq

/-- The slice length used when building the request context
(`contextMessages.slice(-15)`, RNTRenderer line 179). -/
def contextWindow : Nat := 15

/-- `setContextMessages(prev => [...prev, {user: command, system: response}])`
(RNTRenderer line 186): the stored buffer grows by one, with no truncation. -/
def appendInteraction (ctx : List Interaction) (command response : List Char) :
    List Interaction :=
  ctx ++ [⟨command, response⟩]

/-- `contextMessages.slice(-15)`: the (at most) 15 most recent entries. -/
def recentContext (ctx : List Interaction) : List Interaction :=
  ctx.drop (ctx.length - contextWindow)

/-- The per-pair formatting of RNTRenderer line 179. -/
def formatInteraction (m : Interaction) : List Char :=
  str "User: " ++ m.user ++ str "\nRNT System: " ++ m.system

/-- The context string embedded in an RNT request (RNTRenderer line 179). -/
def rntRecentContext (ctx : List Interaction) : List Char :=
  joinLines ((recentContext ctx).map formatInteraction)

/-- `n` successive `appendInteraction` calls with a fixed pair. -/
def appendN : Nat → List Interaction → List Interaction
  | 0, ctx => ctx
  | n + 1, ctx => appendN n (appendInteraction ctx (str "cmd") (str "resp"))

/-! ## Telnet session context (TelnetRenderer) -/

/-- `sessionContext + `\nUser: ${command}\n`` (TelnetRenderer line 382):
the context embedded in the request for `command`. -/
def telnetNewContext (sessionContext command : List Char) : List Char :=
  sessionContext ++ str "\nUser: " ++ command ++ str "\n"

/-- `setSessionContext(newContext + `System: ${response}\n`)`
(TelnetRenderer line 387). -/
def telnetUpdatedContext (newContext response : List Char) : List Char :=
  newContext ++ str "System: " ++ response ++ str "\n"

/-- Session context after one full command/response round. -/
def telnetRound (sessionContext command response : List Char) : List Char :=
  telnetUpdatedContext (telnetNewContext sessionContext command) response

/-- Session context after a sequence of commands, each answered with `ok`. -/
def telnetCtxAfter (cmds : List (List Char)) : List Char :=
  cmds.foldl (fun sc c => telnetRound sc c (str "ok")) []

/-- The context embedded in the 17th Telnet request after 16 prior rounds. -/
def c4RequestContext : List Char :=
  telnetNewContext (telnetCtxAfter (List.replicate 16 (str "x"))) (str "y")

/-! ## RNT component state: transcript, context buffer and their mirrors -/

/-- The RNT component's state.  `storedHistory`/`storedContext` are the values
the two localStorage keys hydrate to (absent or malformed keys hydrate to
`[]`); the ≈300 ms debounced write-through is modelled as settled. -/
structure RNTState where
  history : List (List Char)
  contextMessages : List Interaction
  storedHistory : List (List Char)
  storedContext : List Interaction
deriving DecidableEq

/-- `handleCommandSubmit` of RNTRenderer (lines 143-188), with every scheduled
timeout (the 2 s wipe of `sys-reset`, the debounced persistence writes)
settled.  `respond` is the external `simulateRNTCommand` call, abstracted as a
function of the request context and the command. -/
def handleCommandSubmit (s : RNTState) (command : List Char)
    (respond : List Char → List Char → List Char) : RNTState :=
  if jsTrim command = [] then s
  else
    let echoed := s.history ++ [str "user@rnt:~$ " ++ command]
    if lowerStr command = str "clear" then
      ⟨[], s.contextMessages, [], s.storedContext⟩
    else if lowerStr command = str "sys-reset" ∨ lowerStr command = str "rnt-reset" then
      ⟨[], [], [], []⟩
    else
      let response := respond (rntRecentContext s.contextMessages) command
      let newHistory := echoed ++ [response]
      let newContext := appendInteraction s.contextMessages command response
      ⟨newHistory, newContext, newHistory, newContext⟩

/-- The fixed boot-sequence lines (RNTRenderer lines 88-95). -/
def bootMessages : List (List Char) :=
  [str "Initializing RNT Kernel v1.0.4...",
   str "Loading Aesthetic Drivers... [OK]",
   str "Connecting to Jack Brito Neural Network... [CONNECTED]",
   str "Mounting RNT-Pkg Mirror Nodes... [4 NODES FOUND]",
   str "Welcome to Referring Node Transmission OS.",
   str "Type 'help' to begin."]

/-- The delay at which the i-th boot line is scheduled (`delay += 600` per
line, RNTRenderer lines 97-104). -/
def bootDelays : List Nat :=
  (List.range bootMessages.length).map (fun i => 600 * (i + 1))

/-- Transcript after the mount effect (RNTRenderer lines 82-109) has settled:
boot lines are appended only when `initialBoot` holds and the hydrated
transcript is empty.  The component is only ever instantiated as
`<RNTRenderer />`, i.e. with the default `initialBoot = true`. -/
def mountHistory (initialBoot : Bool) (stored : Option (List (List Char))) :
    List (List Char) :=
  let h := stored.getD []
  if initialBoot ∧ h = [] then h ++ bootMessages else h

/-! ## Julia chart-block extraction (JuliaRenderer.runSimulation) -/

/-- Opening delimiter matched by `/```json-plotly\n([\s\S]*?)\n```/`. -/
def chartOpen : List Char := str "```json-plotly\n"

/-- Closing delimiter of the chart block. -/
def chartClose : List Char := str "\n```"

/-- JavaScript `String.prototype.replace` with a plain pattern and empty
replacement: removes the first occurrence of `pat`, if any. -/
def replaceFirst (s pat : List Char) : List Char :=
  match findSub pat s with
  | none => s
  | some i => s.take i ++ s.drop (i + pat.length)

/-- Fallback display text for an empty reply (JuliaRenderer line 83). -/
def juliaNoOutput : List Char := str "A execução não produziu nenhuma saída."

/-- The chart-render-failure notice (JuliaRenderer line 93). -/
def juliaErrNotice : List Char := str "\n\n[Erro ao renderizar o gráfico visualmente]"

/-- `response.text || 'A execução não produziu nenhuma saída.'`. -/
def juliaDisplayBase (textOpt : Option (List Char)) : List Char :=
  match textOpt with
  | none => juliaNoOutput
  | some t => if t = [] then juliaNoOutput else t

/-- The lazy regex match: leftmost occurrence `i` of the opening delimiter,
then the earliest occurrence `j` (relative to the text after the opening) of
the closing delimiter. -/
def findChartBlock (s : List Char) : Option (Nat × Nat) :=
  match findSub chartOpen s with
  | none => none
  | some i =>
    match findSub chartClose (s.drop (i + chartOpen.length)) with
    | none => none
    | some j => some (i, j)

/-- The captured group `plotMatch[1]` for a block located at `(i, j)`. -/
def chartInnerAt (t : List Char) (i j : Nat) : List Char :=
  (t.drop (i + chartOpen.length)).take j

/-- The chart-handling of `runSimulation` (JuliaRenderer lines 81-96): on a
successful parse the raw block is removed from the display text and the chart
specification returned; on a parse failure the notice is appended.  `parse`
abstracts `JSON.parse`, whose success/failure is all the code inspects. -/
def extractJulia {α : Type} (parse : List Char → Option α)
    (textOpt : Option (List Char)) : List Char × Option α :=
  let displayText := juliaDisplayBase textOpt
  match findChartBlock displayText with
  | none => (displayText, none)
  | some (i, j) =>
    let inner := chartInnerAt displayText i j
    match parse inner with
    | some spec => (replaceFirst displayText (chartOpen ++ inner ++ chartClose), some spec)
    | none => (displayText ++ juliaErrNotice, none)

/-! ## Framework simulation extraction (simulateFrameworkExecution) -/

/-- The parsed reply shape the code reads two fields from; a field is `none`
when absent (and the empty string is falsy, handled by `fieldOr`). -/
structure FrameworkDoc where
  responseBody : Option (List Char)
  serverLogs : Option (List Char)
deriving DecidableEq

/-- Fallback body when `result.responseBody` is falsy (service line 344). -/
def fwEmptyBody : List Char := str "<h1>Erro: Resposta vazia do servidor simulado.</h1>"

/-- Fallback logs when `result.serverLogs` is falsy (service line 345). -/
def fwLogFail : List Char := str "[Error] Failed to parse simulation logs."

/-- Catch-branch body when the failure message mentions 429 (line 351). -/
def fwQuotaBody : List Char :=
  str "<h1>503 Service Unavailable</h1><p>API Quota Exceeded. Please try again later.</p>"

/-- Catch-branch logs when the failure message mentions 429 (line 353). -/
def fwQuotaLog : List Char := str "CRITICAL: API Quota Limit Reached."

/-- Generic catch-branch body (service line 356). -/
def fwFailBody : List Char := str "<h1>500 Internal Server Error (Simulation Failed)</h1>"

/-- Generic catch-branch log prefix (service line 357); the interpolated
`${error}` is modelled by the failure's message. -/
def fwFailLogPrefix : List Char := str "CRITICAL: Simulation failed due to API error: "

/-- `response.text || '{}'`. -/
def jsOrEmptyObj (t : Option (List Char)) : List Char :=
  match t with
  | none => str "{}"
  | some s => if s = [] then str "{}" else s

/-- `field || fallback` over an optional string field. -/
def fieldOr (f : Option (List Char)) (fallback : List Char) : List Char :=
  match f with
  | none => fallback
  | some v => if v = [] then fallback else v

/-- `simulateFrameworkExecution` (service lines 308-360) after the external
call resolved to `apiResult`.  `parse` abstracts `JSON.parse`; a thrown parse
error carries its message and lands in the same catch as an API failure. -/
def simulateFrameworkExecution (parse : List Char → Except (List Char) FrameworkDoc)
    (apiResult : Except JsError (Option (List Char))) : List Char × List Char :=
  match apiResult with
  | Except.error e =>
    if containsSub e.message (str "429") then (fwQuotaBody, fwQuotaLog)
    else (fwFailBody, fwFailLogPrefix ++ e.message)
  | Except.ok textOpt =>
    match parse (jsOrEmptyObj textOpt) with
    | Except.ok doc =>
      (fieldOr doc.responseBody fwEmptyBody, fieldOr doc.serverLogs fwLogFail)
    | Except.error msg =>
      if containsSub msg (str "429") then (fwQuotaBody, fwQuotaLog)
      else (fwFailBody, fwFailLogPrefix ++ msg)

/-- Stand-in for `JSON.parse` on the two inputs exercised by the theorems
below: the empty object parses to a document with both fields absent; the
non-JSON reply used as counterexample input throws a syntax error. -/
def jsonParseModel (s : List Char) : Except (List Char) FrameworkDoc :=
  if s = str "{}" then Except.ok ⟨none, none⟩
  else Except.error (str "Unexpected token in JSON")

/-! ## Terminal reply post-processing (simulateTelnetCommand / simulateRNTCommand) -/

/-- Success path of `simulateTelnetCommand` (service line 246):
`return response.text || ""` — the reply is returned verbatim. -/
def telnetReply (textOpt : Option (List Char)) : List Char :=
  match textOpt with
  | none => []
  | some t => t

/-- Case-insensitive anchored prefix test, as the `/^.../i` regexes do. -/
def ciStartsWith (pat s : List Char) : Bool := isPre (lowerStr pat) (lowerStr s)

/-- `s.replace(/^pat/i, '')`: an anchored case-insensitive match removes
exactly `pat.length` characters from the front. -/
def stripCIPrefix (pat s : List Char) : List Char :=
  if ciStartsWith pat s then s.drop pat.length else s

/-- Case-insensitive anchored suffix test, as `/...$/i` does. -/
def ciEndsWith (pat s : List Char) : Bool :=
  isPre (lowerStr pat).reverse (lowerStr s).reverse

/-- `s.replace(/pat$/i, '')`. -/
def stripCISuffix (pat s : List Char) : List Char :=
  if ciEndsWith pat s then s.take (s.length - pat.length) else s

/-- Success path of `simulateRNTCommand` (service lines 296-299):
`text.replace(/^```rnt\n/i, '').replace(/^```\n/i, '').replace(/```$/i, '')`
followed by `.trim()`, applied to `response.text || ""`. -/
def rntReply (textOpt : Option (List Char)) : List Char :=
  let t := match textOpt with | none => [] | some t => t
  jsTrim (stripCISuffix (str "```")
    (stripCIPrefix (str "```\n") (stripCIPrefix (str "```rnt\n") t)))

/-- A Telnet reply carrying fence delimiters, used as counterexample input. -/
def c8Bad : List Char := str "```\nhi\n```"

/-! ## Chat hook (useChatHistory.sendMessage) -/

/-- Message sender. -/
inductive Sender
  | user
  | ai
deriving DecidableEq

/-- A chat message (`Message` of types.ts, as used by the hook). -/
structure ChatMessage where
  id : List Char
  text : List Char
  imageUrl : Option (List Char)
  sender : Sender
  sources : List (List Char × List Char)
deriving DecidableEq

/-- `AIChatResponse`: the normalized reply of `sendMessageToGemini`. -/
structure AIChatResponse where
  text : Option (List Char)
  errorMessage : Option (List Char)
  imageUrl : Option (List Char)
  sources : List (List Char × List Char)
deriving DecidableEq

/-- JavaScript truthiness of an optional string: present and non-empty. -/
def truthy : Option (List Char) → Bool
  | none => false
  | some s => !s.isEmpty

/-- The AI message built from a reply (useChatHistory lines 157-181);
`aid` is the `Date.now()+1` derived id. -/
def aiMessageOf (resp : AIChatResponse) (inputText aid : List Char) : ChatMessage :=
  if truthy resp.errorMessage then
    ⟨aid, resp.errorMessage.getD [], none, Sender.ai, []⟩
  else if truthy resp.imageUrl then
    ⟨aid,
      (if truthy resp.text then resp.text.getD []
       else if isPre (str "/imagem") inputText then
         str "Aqui está a imagem que criei para você com o prompt: \"" ++
           jsTrim (inputText.drop 8) ++ str "\""
       else str "Aqui está a imagem que editei para você!"),
      resp.imageUrl, Sender.ai, []⟩
  else
    ⟨aid, (if truthy resp.text then resp.text.getD [] else str "Não recebi uma resposta válida."),
      none, Sender.ai, resp.sources⟩

/-- State owned by `useChatHistory`. -/
structure ChatState where
  messages : List ChatMessage
  isLoading : Bool
deriving DecidableEq

/-- `sendMessage` (useChatHistory lines 143-193) with the awaited call
settled.  `api` is the outcome of `sendMessageToGemini` (`Except.error` models
a thrown exception, caught on lines 183-189); `uid`/`aid` are the
`Date.now()`-derived ids.  The boolean records whether the external
generation-service call was performed. -/
def sendMessage (s : ChatState) (inputText uid aid : List Char)
    (api : Except Unit AIChatResponse) : ChatState × Bool :=
  if jsTrim inputText = [] ∨ s.isLoading = true then (s, false)
  else
    let userMsg : ChatMessage := ⟨uid, inputText, none, Sender.user, []⟩
    let base := s.messages ++ [userMsg]
    match api with
    | Except.ok resp => (⟨base ++ [aiMessageOf resp inputText aid], false⟩, true)
    | Except.error _ =>
      (⟨base ++ [⟨aid,
          str "Desculpe, ocorreu um erro inesperado ao processar sua solicitação. Tente novamente.",
          none, Sender.ai, []⟩], false⟩, true)

/-! ## Concrete inputs used by witnesses and counterexamples -/

/-- A retryable failure: message mentioning 429/quota, status 429. -/
def c1Err : JsError := ⟨str "Error 429: quota exceeded", some 429⟩

/-- An operation that fails retryably once and then succeeds. -/
def c1Op : Nat → Except JsError Nat :=
  fun n => if n = 0 then Except.error c1Err else Except.ok 7

/-- A non-retryable failure (invalid-credential message). -/
def c2Err : JsError := ⟨str "Requested entity was not found.", none⟩

/-- An operation that always fails non-retryably. -/
def c2Op : Nat → Except JsError Nat := fun _ => Except.error c2Err

/-- The Julia reply used as concrete input: text around an unparseable block. -/
def c6Text : List Char := str "ok\n```json-plotly\nbad\n```"

/-! # Supporting lemmas -/

theorem isPre_append_self (pat r : List Char) : isPre pat (pat ++ r) = true := by
  induction pat with
  | nil => rfl
  | cons a ps ih => simp [isPre, ih]

theorem eq_append_drop_of_isPre {pat s : List Char} (h : isPre pat s = true) :
    s = pat ++ s.drop pat.length := by
  induction pat generalizing s with
  | nil => simp
  | cons a ps ih =>
    cases s with
    | nil => simp [isPre] at h
    | cons b ss =>
      simp only [isPre, Bool.and_eq_true, beq_iff_eq] at h
      obtain ⟨rfl, h2⟩ := h
      simp only [List.cons_append, List.length_cons, List.drop_succ_cons]
      exact congrArg (a :: ·) (ih h2)

theorem isPre_of_append_left {p q s : List Char} (h : isPre (p ++ q) s = true) :
    isPre p s = true := by
  induction p generalizing s with
  | nil => rfl
  | cons a ps ih =>
    cases s with
    | nil => simp [isPre] at h
    | cons b ss =>
      simp only [List.cons_append, isPre, Bool.and_eq_true] at h ⊢
      exact ⟨h.1, ih h.2⟩

theorem isPre_nil_iff (pat : List Char) : isPre pat [] = true ↔ pat = [] := by
  cases pat <;> simp [isPre]

theorem findSub_isPre {pat s : List Char} {i : Nat} (h : findSub pat s = some i) :
    isPre pat (s.drop i) = true := by
  induction s generalizing i with
  | nil =>
    simp only [findSub] at h
    by_cases hp : isPre pat ([] : List Char) = true
    · rw [if_pos hp] at h
      injection h with h
      subst h
      simpa using hp
    · rw [if_neg hp] at h
      cases h
  | cons c t ih =>
    simp only [findSub] at h
    by_cases hp : isPre pat (c :: t) = true
    · rw [if_pos hp] at h
      injection h with h
      subst h
      simpa using hp
    · rw [if_neg hp] at h
      rcases Option.map_eq_some'.mp h with ⟨i', hi', rfl⟩
      simpa [List.drop_succ_cons] using ih hi'

theorem findSub_min {pat s : List Char} {i : Nat} (h : findSub pat s = some i) :
    ∀ k, k < i → isPre pat (s.drop k) = false := by
  induction s generalizing i with
  | nil =>
    intro k hk
    simp only [findSub] at h
    by_cases hp : isPre pat ([] : List Char) = true
    · rw [if_pos hp] at h
      injection h with h
      omega
    · rw [if_neg hp] at h
      cases h
  | cons c t ih =>
    intro k hk
    simp only [findSub] at h
    by_cases hp : isPre pat (c :: t) = true
    · rw [if_pos hp] at h
      injection h with h
      omega
    · rw [if_neg hp] at h
      rcases Option.map_eq_some'.mp h with ⟨i', hi', rfl⟩
      cases k with
      | zero =>
        simp only [List.drop_zero]
        exact Bool.eq_false_iff.mpr hp
      | succ k' => simpa [List.drop_succ_cons] using ih hi' k' (by omega)

theorem findSub_le_length {pat s : List Char} {i : Nat} (hne : pat ≠ [])
    (h : findSub pat s = some i) : i ≤ s.length := by
  by_contra hgt
  push_neg at hgt
  have h1 := findSub_isPre h
  rw [List.drop_eq_nil_of_le (by omega)] at h1
  exact hne ((isPre_nil_iff pat).mp h1)

theorem findSub_eq_some {pat s : List Char} {i : Nat}
    (h1 : isPre pat (s.drop i) = true)
    (h2 : ∀ k, k < i → isPre pat (s.drop k) = false)
    (h3 : i ≤ s.length) : findSub pat s = some i := by
  induction s generalizing i with
  | nil =>
    have hi0 : i = 0 := by simpa using h3
    subst hi0
    simp only [findSub]
    rw [if_pos (by simpa using h1)]
  | cons c t ih =>
    cases i with
    | zero =>
      simp only [findSub]
      rw [if_pos (by simpa using h1)]
    | succ i' =>
      have h0 : isPre pat (c :: t) = false := by simpa using h2 0 (by omega)
      simp only [findSub]
      rw [if_neg (by simp [h0])]
      rw [ih (by simpa [List.drop_succ_cons] using h1)
        (fun k hk => by simpa [List.drop_succ_cons] using h2 (k + 1) (by omega))
        (by simpa using h3)]
      rfl

/-! ## Unfolding lemmas for the retry loop -/

theorem retryAux_ok {T : Type} (op : Nat → Except JsError T) (mr idl a : Nat) {v : T}
    (h : op a = Except.ok v) : retryAux op mr idl a = ⟨1, [], Except.ok v⟩ := by
  rw [retryAux, h]

theorem retryAux_stop {T : Type} (op : Nat → Except JsError T) (mr idl a : Nat) {e : JsError}
    (h : op a = Except.error e) (hc : isRetryableError e = false ∨ mr ≤ a) :
    retryAux op mr idl a = ⟨1, [], Except.error e⟩ := by
  rw [retryAux, h]
  exact dif_pos hc

theorem retryAux_step {T : Type} (op : Nat → Except JsError T) (mr idl a : Nat) {e : JsError}
    (h : op a = Except.error e) (h1 : isRetryableError e = true) (h2 : a < mr) :
    retryAux op mr idl a =
      ⟨(retryAux op mr idl (a + 1)).attempts + 1,
       idl * 2 ^ a :: (retryAux op mr idl (a + 1)).delays,
       (retryAux op mr idl (a + 1)).result⟩ := by
  rw [retryAux, h]
  refine dif_neg (not_or.mpr ⟨?_, ?_⟩)
  · simp [h1]
  · omega

/-- Behaviour of the retry loop from iteration `a` when the next `d`
attempts fail retryably and the run then stops (or retries are exhausted). -/
theorem retryAux_run {T : Type} (op : Nat → Except JsError T) (maxRetries initialDelay : Nat) :
    ∀ d a,
      (∀ i, i < d → ∃ e, op (a + i) = Except.error e ∧ isRetryableError e = true) →
      (a + d ≤ maxRetries → stopsRetrying op (a + d)) →
      (retryAux op maxRetries initialDelay a).attempts = min (d + 1) (maxRetries - a + 1) ∧
      (retryAux op maxRetries initialDelay a).delays =
        (List.range' a (min d (maxRetries - a))).map (fun k => initialDelay * 2 ^ k) := by
  intro d
  induction d with
  | zero =>
    intro a _ hstop
    simp only [Nat.add_zero] at hstop
    by_cases hle : a ≤ maxRetries
    · rcases hstop hle with ⟨v, hv⟩ | ⟨e, he, hne⟩
      · rw [retryAux_ok op maxRetries initialDelay a hv]
        refine ⟨?_, by simp⟩
        show 1 = min (0 + 1) (maxRetries - a + 1)
        omega
      · rw [retryAux_stop op maxRetries initialDelay a he (Or.inl hne)]
        refine ⟨?_, by simp⟩
        show 1 = min (0 + 1) (maxRetries - a + 1)
        omega
    · cases hop : op a with
      | ok v =>
        rw [retryAux_ok op maxRetries initialDelay a hop]
        refine ⟨?_, by simp⟩
        show 1 = min (0 + 1) (maxRetries - a + 1)
        omega
      | error e =>
        rw [retryAux_stop op maxRetries initialDelay a hop (Or.inr (by omega))]
        refine ⟨?_, by simp⟩
        show 1 = min (0 + 1) (maxRetries - a + 1)
        omega
  | succ d ih =>
    intro a hfail hstop
    obtain ⟨e0, he0, hr0⟩ := hfail 0 (by omega)
    rw [Nat.add_zero] at he0
    by_cases hlt : a < maxRetries
    · rw [retryAux_step op maxRetries initialDelay a he0 hr0 hlt]
      obtain ⟨iha, ihd⟩ := ih (a + 1)
        (fun i hi => by
          have h := hfail (i + 1) (by omega)
          have e : a + (i + 1) = a + 1 + i := by omega
          rwa [e] at h)
        (fun hle => by
          have h := hstop (by omega)
          have e : a + (d + 1) = a + 1 + d := by omega
          rwa [e] at h)
      constructor
      · show (retryAux op maxRetries initialDelay (a + 1)).attempts + 1 =
          min (d + 1 + 1) (maxRetries - a + 1)
        rw [iha]
        omega
      · show initialDelay * 2 ^ a :: (retryAux op maxRetries initialDelay (a + 1)).delays =
          (List.range' a (min (d + 1) (maxRetries - a))).map (fun k => initialDelay * 2 ^ k)
        rw [ihd]
        have hm : min (d + 1) (maxRetries - a) = min d (maxRetries - (a + 1)) + 1 := by omega
        rw [hm, List.range'_succ, List.map_cons]
    · rw [retryAux_stop op maxRetries initialDelay a he0 (Or.inr (by omega))]
      constructor
      · show 1 = min (d + 1 + 1) (maxRetries - a + 1)
        omega
      · show ([] : List Nat) =
          (List.range' a (min (d + 1) (maxRetries - a))).map (fun k => initialDelay * 2 ^ k)
        have hm : min (d + 1) (maxRetries - a) = 0 := by omega
        simp [hm]

/-! # Claim theorems -/

/-- Claim C1: when the first `N` attempts of an operation fail retryably
(status 429/503 or a message containing 429/503/quota/resource exhausted/
overloaded, per `isRetryableError`) and the run then stops, `retryOperation`
invokes the operation `min (N+1) (maxRetries+1)` times, waits
`initialDelay * 2 ^ attempt` before the retry numbered `attempt`, these
inter-attempt delays are strictly increasing, and the defaults are
`maxRetries = 3`, `initialDelay = 2000`. -/
theorem c1_retry_backoff {T : Type} (op : Nat → Except JsError T)
    (N maxRetries initialDelay : Nat)
    (hfail : ∀ i, i < N → ∃ e, op i = Except.error e ∧ isRetryableError e = true)
    (hstop : N ≤ maxRetries → stopsRetrying op N)
    (hpos : 0 < initialDelay) :
    (retryOperation op maxRetries initialDelay).attempts = min (N + 1) (maxRetries + 1) ∧
    (retryOperation op maxRetries initialDelay).delays =
      (List.range (min N maxRetries)).map (fun a => initialDelay * 2 ^ a) ∧
    (retryOperation op maxRetries initialDelay).delays.Chain' (· < ·) ∧
    retryOperationDefault op = retryOperation op 3 2000 := by
  obtain ⟨ha, hd⟩ := retryAux_run op maxRetries initialDelay N 0
    (fun i hi => by simpa using hfail i hi)
    (by simpa using hstop)
  have hd' : (retryOperation op maxRetries initialDelay).delays =
      (List.range (min N maxRetries)).map (fun a => initialDelay * 2 ^ a) := by
    rw [retryOperation, hd, Nat.sub_zero, ← List.range_eq_range']
  refine ⟨by simpa using ha, hd', ?_, rfl⟩
  rw [hd']
  refine List.Pairwise.chain' ?_
  refine (List.pairwise_lt_range _).map _ (fun a b hab => ?_)
  exact mul_lt_mul_of_pos_left (Nat.pow_lt_pow_of_lt (by omega) hab) hpos

theorem c1_retry_backoff_witness :
    (retryOperation c1Op 3 2000).attempts = min (1 + 1) (3 + 1) ∧
    (retryOperation c1Op 3 2000).delays =
      (List.range (min 1 3)).map (fun a => 2000 * 2 ^ a) := by
  have h := c1_retry_backoff c1Op 1 3 2000
    (fun i hi => by
      have hi0 : i = 0 := by omega
      subst hi0
      exact ⟨c1Err, rfl, by decide⟩)
    (fun _ => Or.inl ⟨7, rfl⟩)
    (by omega)
  exact ⟨h.1, h.2.1⟩

/-- Claim C2: a first failure that is not retryable makes `retryOperation`
attempt the operation exactly once (no delays) and propagate that very
failure; and when every attempt up to `maxRetries` fails retryably, the run
makes `maxRetries + 1` attempts and propagates the last failure unchanged. -/
theorem c2_failure_propagation {T : Type} (op : Nat → Except JsError T)
    (maxRetries initialDelay : Nat) :
    (∀ e, op 0 = Except.error e → isRetryableError e = false →
      retryOperation op maxRetries initialDelay = ⟨1, [], Except.error e⟩) ∧
    (∀ err : Nat → JsError,
      (∀ i, i ≤ maxRetries → op i = Except.error (err i) ∧ isRetryableError (err i) = true) →
      (retryOperation op maxRetries initialDelay).result = Except.error (err maxRetries) ∧
      (retryOperation op maxRetries initialDelay).attempts = maxRetries + 1) := by
  constructor
  · intro e h0 hnr
    exact retryAux_stop op maxRetries initialDelay 0 h0 (Or.inl hnr)
  · intro err hall
    have main : ∀ d a, a + d = maxRetries →
        (retryAux op maxRetries initialDelay a).result = Except.error (err maxRetries) ∧
        (retryAux op maxRetries initialDelay a).attempts = d + 1 := by
      intro d
      induction d with
      | zero =>
        intro a ha
        obtain ⟨hop, _⟩ := hall a (by omega)
        rw [retryAux_stop op maxRetries initialDelay a hop (Or.inr (by omega))]
        have haeq : a = maxRetries := by omega
        subst haeq
        exact ⟨rfl, rfl⟩
      | succ d ih =>
        intro a ha
        obtain ⟨hop, hret⟩ := hall a (by omega)
        rw [retryAux_step op maxRetries initialDelay a hop hret (by omega)]
        obtain ⟨ihr, iha⟩ := ih (a + 1) (by omega)
        refine ⟨ihr, ?_⟩
        show (retryAux op maxRetries initialDelay (a + 1)).attempts + 1 = d + 1 + 1
        rw [iha]
    exact main maxRetries 0 (by omega)

theorem c2_failure_propagation_witness :
    retryOperation c2Op 3 2000 = ⟨1, [], Except.error c2Err⟩ :=
  (c2_failure_propagation c2Op 3 2000).1 c2Err rfl (by decide)

/-- Claim C3 counterexample: sixteen `appendInteraction` calls starting from
an empty buffer leave a stored context buffer of length 16, exceeding the
window of 15 — the append never truncates the stored buffer. -/
theorem c3_window_counterexample : contextWindow < (appendN 16 []).length := by
  decide

/-- Claim C3 (amended): `appendInteraction` grows the stored buffer by one on
every call with no truncation; the window bound instead holds for the slice
taken at request time — `recentContext` has at most `contextWindow` entries
and is a suffix (the most recent entries) of the stored buffer. -/
theorem c3_append_and_window (ctx : List Interaction) (command response : List Char) :
    (appendInteraction ctx command response).length = ctx.length + 1 ∧
    (recentContext ctx).length ≤ contextWindow ∧
    ctx.take (ctx.length - contextWindow) ++ recentContext ctx = ctx := by
  refine ⟨by simp [appendInteraction], ?_, ?_⟩
  · simp only [recentContext, List.length_drop]
    omega
  · exact List.take_append_drop _ ctx

set_option maxRecDepth 8000 in
/-- Claim C4 counterexample: after sixteen Telnet command/response rounds the
context embedded in the next request still contains all seventeen `User: `
markers — the Telnet session context is never windowed to 15 pairs. -/
theorem c4_telnet_window_counterexample :
    contextWindow < countSub c4RequestContext (str "User: ") := by
  decide

/-- Claim C4 (amended): the Telnet request context keeps the whole previous
session context as a prefix (old pairs are never dropped), while the RNT
request context is built from at most the `contextWindow` most recent pairs:
entries older than a full window do not affect it. -/
theorem c4_request_context (sc command response : List Char)
    (pre ctx : List Interaction) (h : ctx.length = contextWindow) :
    telnetRound sc command response =
      sc ++ (str "\nUser: " ++ command ++ str "\n" ++
        (str "System: " ++ response ++ str "\n")) ∧
    rntRecentContext (pre ++ ctx) = rntRecentContext ctx ∧
    (recentContext (pre ++ ctx)).length ≤ contextWindow := by
  have hdrop : recentContext (pre ++ ctx) = ctx := by
    simp only [recentContext, List.length_append, h]
    have he : pre.length + contextWindow - contextWindow = pre.length := by omega
    rw [he, List.drop_left]
  refine ⟨?_, ?_, ?_⟩
  · simp [telnetRound, telnetNewContext, telnetUpdatedContext, List.append_assoc]
  · have h2 : recentContext ctx = ctx := by
      simp only [recentContext, h, Nat.sub_self, List.drop_zero]
    rw [rntRecentContext, rntRecentContext, hdrop, h2]
  · rw [hdrop, h]

theorem c4_request_context_witness :
    rntRecentContext ([(⟨str "a", str "b"⟩ : Interaction)] ++
        List.replicate 15 (⟨str "a", str "b"⟩ : Interaction)) =
      rntRecentContext (List.replicate 15 (⟨str "a", str "b"⟩ : Interaction)) :=
  (c4_request_context [] [] [] [⟨str "a", str "b"⟩]
    (List.replicate 15 ⟨str "a", str "b"⟩) (by decide)).2.1

/-- Claim C5: the `clear` command empties the transcript and its persisted
copy while leaving the context buffer and its persisted copy untouched;
`sys-reset` and `rnt-reset` empty both collections and erase both persisted
copies. -/
theorem c5_clear_and_reset (s : RNTState) (respond : List Char → List Char → List Char) :
    (handleCommandSubmit s (str "clear") respond).history = [] ∧
    (handleCommandSubmit s (str "clear") respond).storedHistory = [] ∧
    (handleCommandSubmit s (str "clear") respond).contextMessages = s.contextMessages ∧
    (handleCommandSubmit s (str "clear") respond).storedContext = s.storedContext ∧
    handleCommandSubmit s (str "sys-reset") respond = ⟨[], [], [], []⟩ ∧
    handleCommandSubmit s (str "rnt-reset") respond = ⟨[], [], [], []⟩ :=
  ⟨rfl, rfl, rfl, rfl, rfl, rfl⟩

/-- Claim C9: with the only instantiation used (`initialBoot = true`, the
default), the fixed boot lines are appended exactly when the hydrated
transcript is empty at mount; a non-empty restored transcript receives no
boot lines; the per-line schedule is the fixed increasing 600 ms ladder. -/
theorem c9_boot_sequence (h : List (List Char)) :
    (h = [] → mountHistory true (some h) = h ++ bootMessages) ∧
    (h ≠ [] → mountHistory true (some h) = h) ∧
    (mountHistory true (some h) = h ++ bootMessages ↔ h = []) ∧
    bootDelays = [600, 1200, 1800, 2400, 3000, 3600] := by
  have hskip : h ≠ [] → mountHistory true (some h) = h := by
    intro hne
    simp [mountHistory, hne]
  have hbl : bootMessages.length = 6 := by decide
  refine ⟨?_, hskip, ⟨?_, ?_⟩, by decide⟩
  · intro he
    subst he
    rfl
  · intro heq
    by_contra hne
    rw [hskip hne] at heq
    have hlen := congrArg List.length heq
    rw [List.length_append, hbl] at hlen
    omega
  · intro he
    subst he
    rfl

theorem c9_boot_sequence_witness :
    mountHistory true (some [str "x"]) = [str "x"] :=
  (c9_boot_sequence [str "x"]).2.1 (by decide)

/-- Claim C10: `sendMessage` called with empty or whitespace-only input, or
while a previous call is still in flight, leaves the state (including the
message list) unchanged and performs no external generation-service call. -/
theorem c10_sendMessage_guard (s : ChatState) (inputText uid aid : List Char)
    (api : Except Unit AIChatResponse)
    (h : jsTrim inputText = [] ∨ s.isLoading = true) :
    sendMessage s inputText uid aid api = (s, false) := by
  unfold sendMessage
  exact if_pos h

theorem c10_sendMessage_guard_witness :
    sendMessage ⟨[], false⟩ (str "   ") (str "1") (str "2") (Except.error ()) =
      (⟨[], false⟩, false) :=
  c10_sendMessage_guard ⟨[], false⟩ (str "   ") (str "1") (str "2") (Except.error ())
    (Or.inl (by decide))

/-- Eliminates a successful chart-block search into its two component
searches. -/
theorem findChartBlock_elim {t : List Char} {i j : Nat}
    (h : findChartBlock t = some (i, j)) :
    findSub chartOpen t = some i ∧
    findSub chartClose (t.drop (i + chartOpen.length)) = some j := by
  unfold findChartBlock at h
  cases ho : findSub chartOpen t with
  | none =>
    rw [ho] at h
    simp at h
  | some i₀ =>
    rw [ho] at h
    simp only at h
    cases hc : findSub chartClose (t.drop (i₀ + chartOpen.length)) with
    | none =>
      rw [hc] at h
      simp at h
    | some j₀ =>
      rw [hc] at h
      have hij : (i₀, j₀) = (i, j) := by simpa using h
      have hi : i₀ = i := congrArg Prod.fst hij
      have hj : j₀ = j := congrArg Prod.snd hij
      subst hi
      subst hj
      exact ⟨rfl, hc⟩

/-- Claim C6: a Julia reply carrying a chart block never loses its textual
portions: when the block contents fail to parse, the displayed text is the
whole reply with the visible render-failure notice appended and no chart is
handed over; when they parse, the raw block is excised from the displayed
text and the parsed specification is handed to the chart renderer. -/
theorem c6_chart_block_extraction {α : Type} (parse : List Char → Option α)
    (t : List Char) (i j : Nat) (hne : t ≠ [])
    (hblk : findChartBlock t = some (i, j)) :
    (parse (chartInnerAt t i j) = none →
      extractJulia parse (some t) = (t ++ juliaErrNotice, none)) ∧
    (∀ spec, parse (chartInnerAt t i j) = some spec →
      extractJulia parse (some t) =
        (t.take i ++ t.drop (i + chartOpen.length + j + chartClose.length), some spec)) := by
  obtain ⟨hopen, hclose⟩ := findChartBlock_elim hblk
  have hbase : juliaDisplayBase (some t) = t := by simp [juliaDisplayBase, hne]
  constructor
  · intro hp
    simp only [extractJulia, hbase, hblk, hp]
  · intro spec hp
    have hiopen := findSub_isPre hopen
    have himin := findSub_min hopen
    have hile : i ≤ t.length := findSub_le_length (by decide) hopen
    obtain ⟨rest, hrestdef⟩ : ∃ r, t.drop (i + chartOpen.length) = r := ⟨_, rfl⟩
    rw [hrestdef] at hclose
    have hiclose := findSub_isPre hclose
    have hjle : j ≤ rest.length := findSub_le_length (by decide) hclose
    have hsplit1 : t.drop i = chartOpen ++ rest := by
      have h1 := eq_append_drop_of_isPre hiopen
      rwa [List.drop_drop, hrestdef] at h1
    have hinner : chartInnerAt t i j = rest.take j := by
      simp only [chartInnerAt, hrestdef]
    have hcs : rest.drop j =
        chartClose ++ (rest.drop j).drop chartClose.length :=
      eq_append_drop_of_isPre hiclose
    have big : t.drop i =
        (chartOpen ++ rest.take j ++ chartClose) ++
          (rest.drop j).drop chartClose.length := by
      calc t.drop i = chartOpen ++ rest := hsplit1
        _ = chartOpen ++ (rest.take j ++ rest.drop j) := by
              rw [List.take_append_drop]
        _ = chartOpen ++ (rest.take j ++
              (chartClose ++ (rest.drop j).drop chartClose.length)) := by
              conv_lhs => rw [hcs]
        _ = (chartOpen ++ rest.take j ++ chartClose) ++
              (rest.drop j).drop chartClose.length := by
              simp [List.append_assoc]
    have hw : isPre (chartOpen ++ rest.take j ++ chartClose) (t.drop i) = true := by
      rw [big]
      exact isPre_append_self _ _
    have hwmin : ∀ k, k < i →
        isPre (chartOpen ++ rest.take j ++ chartClose) (t.drop k) = false := by
      intro k hk
      by_contra hcon
      have hcon' : isPre (chartOpen ++ rest.take j ++ chartClose) (t.drop k) = true := by
        revert hcon
        cases isPre (chartOpen ++ rest.take j ++ chartClose) (t.drop k) <;> simp
      rw [List.append_assoc] at hcon'
      have h1 := isPre_of_append_left hcon'
      rw [himin k hk] at h1
      cases h1
    have hfind : findSub (chartOpen ++ rest.take j ++ chartClose) t = some i :=
      findSub_eq_some hw hwmin hile
    rw [hinner] at hp
    simp only [extractJulia, hbase, hblk, hinner, hp]
    simp only [replaceFirst, hfind]
    have harith : i + (chartOpen ++ rest.take j ++ chartClose).length =
        i + chartOpen.length + j + chartClose.length := by
      simp only [List.length_append, List.length_take]
      omega
    rw [harith]

theorem c6_chart_block_extraction_witness :
    extractJulia (fun _ => (none : Option Unit)) (some c6Text) =
      (c6Text ++ juliaErrNotice, none) :=
  (c6_chart_block_extraction (fun _ => (none : Option Unit)) c6Text 3 3
    (by decide) (by decide)).1 rfl

/-- Claim C7 counterexample: a reply that is not valid JSON throws in
`JSON.parse` and lands in the catch branch, which returns the 500
simulation-failed page — not the empty-response placeholder the claim
says parse failures produce. -/
theorem c7_parse_failure_counterexample :
    (simulateFrameworkExecution jsonParseModel (Except.ok (some (str "not json")))).1 =
      fwFailBody ∧ fwFailBody ≠ fwEmptyBody := by
  decide

/-- Claim C7 (amended): `simulateFrameworkExecution` never throws — every
outcome carries a non-empty body and non-empty logs; a successfully parsed
reply has its absent or empty fields replaced by the empty-response and
log-parse-failure placeholders; a reply whose parse fails is caught and
yields the 500 simulation-failed page with a CRITICAL log line (not those
placeholders). -/
theorem c7_framework_fallbacks (parse : List Char → Except (List Char) FrameworkDoc)
    (apiResult : Except JsError (Option (List Char))) :
    (simulateFrameworkExecution parse apiResult).1 ≠ [] ∧
    (simulateFrameworkExecution parse apiResult).2 ≠ [] ∧
    (∀ textOpt doc, apiResult = Except.ok textOpt →
      parse (jsOrEmptyObj textOpt) = Except.ok doc →
      simulateFrameworkExecution parse apiResult =
        (fieldOr doc.responseBody fwEmptyBody, fieldOr doc.serverLogs fwLogFail)) ∧
    (∀ textOpt msg, apiResult = Except.ok textOpt →
      parse (jsOrEmptyObj textOpt) = Except.error msg →
      containsSub msg (str "429") = false →
      simulateFrameworkExecution parse apiResult =
        (fwFailBody, fwFailLogPrefix ++ msg)) := by
  have hfieldOr : ∀ (f : Option (List Char)) (fb : List Char),
      fb ≠ [] → fieldOr f fb ≠ [] := by
    intro f fb hfb
    cases f with
    | none => simpa [fieldOr]
    | some v =>
      by_cases hv : v = []
      · simp [fieldOr, hv, hfb]
      · simp [fieldOr, hv]
  have hne : ∀ parse' apiResult',
      (simulateFrameworkExecution parse' apiResult').1 ≠ [] ∧
      (simulateFrameworkExecution parse' apiResult').2 ≠ [] := by
    intro parse' apiResult'
    cases apiResult' with
    | error e =>
      by_cases h429 : containsSub e.message (str "429") = true
      · have hv : simulateFrameworkExecution parse' (Except.error e) =
            (fwQuotaBody, fwQuotaLog) := by
          simp [simulateFrameworkExecution, h429]
        rw [hv]
        exact ⟨by decide, by decide⟩
      · have h429' : containsSub e.message (str "429") = false := by
          revert h429
          cases containsSub e.message (str "429") <;> simp
        have hv : simulateFrameworkExecution parse' (Except.error e) =
            (fwFailBody, fwFailLogPrefix ++ e.message) := by
          simp [simulateFrameworkExecution, h429']
        rw [hv]
        constructor
        · show fwFailBody ≠ []
          decide
        · show fwFailLogPrefix ++ e.message ≠ []
          apply List.append_ne_nil_of_left_ne_nil
          decide
    | ok textOpt =>
      cases hp : parse' (jsOrEmptyObj textOpt) with
      | ok doc =>
        have hv : simulateFrameworkExecution parse' (Except.ok textOpt) =
            (fieldOr doc.responseBody fwEmptyBody, fieldOr doc.serverLogs fwLogFail) := by
          simp [simulateFrameworkExecution, hp]
        rw [hv]
        exact ⟨hfieldOr _ _ (by decide), hfieldOr _ _ (by decide)⟩
      | error msg =>
        by_cases h429 : containsSub msg (str "429") = true
        · have hv : simulateFrameworkExecution parse' (Except.ok textOpt) =
              (fwQuotaBody, fwQuotaLog) := by
            simp [simulateFrameworkExecution, hp, h429]
          rw [hv]
          exact ⟨by decide, by decide⟩
        · have h429' : containsSub msg (str "429") = false := by
            revert h429
            cases containsSub msg (str "429") <;> simp
          have hv : simulateFrameworkExecution parse' (Except.ok textOpt) =
              (fwFailBody, fwFailLogPrefix ++ msg) := by
            simp [simulateFrameworkExecution, hp, h429']
          rw [hv]
          constructor
          · show fwFailBody ≠ []
            decide
          · show fwFailLogPrefix ++ msg ≠ []
            apply List.append_ne_nil_of_left_ne_nil
            decide
  refine ⟨(hne parse apiResult).1, (hne parse apiResult).2, ?_, ?_⟩
  · intro textOpt doc hok hp
    subst hok
    simp [simulateFrameworkExecution, hp]
  · intro textOpt msg hok hp h429
    subst hok
    simp [simulateFrameworkExecution, hp, h429]

theorem c7_framework_fallbacks_witness :
    simulateFrameworkExecution jsonParseModel (Except.ok (some (str "{}"))) =
      (fwEmptyBody, fwLogFail) :=
  (c7_framework_fallbacks jsonParseModel (Except.ok (some (str "{}")))).2.2.1
    (some (str "{}")) ⟨none, none⟩ rfl rfl

/-- Claim C8 counterexample: a Telnet reply carrying fence delimiters is
appended exactly as received — it differs from the delimiter-stripped and
trimmed form the claim prescribes for terminal-style replies. -/
theorem c8_telnet_no_strip_counterexample :
    telnetReply (some c8Bad) = c8Bad ∧
    telnetReply (some c8Bad) ≠
      jsTrim (stripCISuffix (str "```")
        (stripCIPrefix (str "```\n") (stripCIPrefix (str "```rnt\n") c8Bad))) := by
  decide

/-- Claim C8 (amended): only the RNT reply is cleaned — the leading
case-insensitive ```rnt fence and the trailing ``` fence are removed and the
result is trimmed — while the Telnet reply is appended verbatim
(`response.text || ""`), with no stripping and no trimming. -/
theorem c8_reply_cleaning (t body : List Char)
    (hb : ciStartsWith (str "```\n") (body ++ str "```") = false) :
    telnetReply (some t) = t ∧
    rntReply (some (str "```rnt\n" ++ (body ++ str "```"))) = jsTrim body := by
  refine ⟨rfl, ?_⟩
  have h1 : stripCIPrefix (str "```rnt\n") (str "```rnt\n" ++ (body ++ str "```")) =
      body ++ str "```" := by
    have hci : ciStartsWith (str "```rnt\n") (str "```rnt\n" ++ (body ++ str "```")) = true := by
      simp only [ciStartsWith, lowerStr, List.map_append]
      exact isPre_append_self _ _
    simp only [stripCIPrefix, hci, if_true]
    exact List.drop_left _ _
  have h2 : stripCIPrefix (str "```\n") (body ++ str "```") = body ++ str "```" := by
    simp [stripCIPrefix, hb]
  have h3 : stripCISuffix (str "```") (body ++ str "```") = body := by
    have hci : ciEndsWith (str "```") (body ++ str "```") = true := by
      simp only [ciEndsWith, lowerStr, List.map_append, List.reverse_append]
      exact isPre_append_self _ _
    simp only [stripCISuffix, hci, if_true]
    have hl : (body ++ str "```").length - (str "```").length = body.length := by
      rw [List.length_append]
      omega
    rw [hl]
    exact List.take_left _ _
  simp only [rntReply, h1, h2, h3]

theorem c8_reply_cleaning_witness :
    rntReply (some (str "```rnt\n" ++ (str "ok " ++ str "```"))) = jsTrim (str "ok ") :=
  (c8_reply_cleaning [] (str "ok ") (by decide)).2

end JackBrito
